import Mathlib

/-!
Verification of the Bedrock-SRC-ItemStack-Database core
(src/scripts/main.js): the AsyncQueue serializing scheduler and the
SRCItemDatabase snapshot-backed record store.

The embedding models the host engine at the interface the code drives:

* An ItemStack is an opaque payload (type id plus amount).
* The staging area (the single block at SRCItemDatabase.location) is the
  list of live item entities currently occupying it; each entity has an
  identity so that a specific entity can be removed, plus the item stack
  it carries.  The engine may normalize a stack when it is materialized
  by dimension.spawnItem; this is modelled by an explicit parameter
  norm applied at spawn time.
* world.structureManager is a finite map from structure id to the list
  of item stacks captured from the staging area when the structure was
  created (createFromWorld with includeEntities and no blocks).
  structureManager.place re-materializes the stored stacks as fresh
  entities at the staging area.
* itemMemory is the process-wide cache map from composite id to the
  cached value (a single stack for set, or an array of stacks for
  setItems).
* The AsyncQueue is the source class AsyncQueue, bundled with the
  shared world state the queued callbacks mutate and with the list of
  messages written by console.error, so that a queued task is a state
  transformer that can also throw (return an error message).
-/

/-- An item stack payload: a type id and an amount.  The store treats it
as opaque; these two fields only give it decidable equality. -/
structure ItemStack where
  typeId : String
  amount : Nat
deriving DecidableEq

/-- A live item entity in the staging area: an identity (so a specific
entity can be removed, as entity.remove does) and the stack it carries. -/
structure Entity where
  eid : Nat
  stack : ItemStack
deriving DecidableEq

/-- A value stored in the itemMemory cache: SRCItemDatabase.set stores a
single item stack, SRCItemDatabase.setItems stores an array of stacks. -/
inductive CacheVal where
  | single (item : ItemStack)
  | many (items : List ItemStack)
deriving DecidableEq

/-- JavaScript truthiness of a cache value: item stacks and arrays are
objects, and every object (including an empty array) is truthy. -/
def truthy : CacheVal → Bool := fun _ => true

/-- StructureSaveMode of the host engine. -/
inductive SaveMode where
  | World
  | Memory
deriving DecidableEq

/-- Lookup in a string-keyed map (JavaScript Map.get / structureManager.get):
the value bound to the first matching key, or none. -/
def mapGet {α : Type} (m : List (String × α)) (k : String) : Option α :=
  match m with
  | [] => none
  | (k1, v) :: rest => if k1 = k then some v else mapGet rest k

/-- Map.set: overwrite the binding of the key if present, else append. -/
def mapSet {α : Type} (m : List (String × α)) (k : String) (v : α) :
    List (String × α) :=
  match m with
  | [] => [(k, v)]
  | (k1, v1) :: rest =>
      if k1 = k then (k, v) :: rest else (k1, v1) :: mapSet rest k v

/-- Map.delete / structureManager.delete: remove the binding of the key.
A JavaScript Map holds at most one binding per key; removing every
binding coincides with removing that one and keeps the model total. -/
def mapDelete {α : Type} (m : List (String × α)) (k : String) :
    List (String × α) :=
  m.filter (fun p => p.1 ≠ k)

/-- Map.has, and the truthiness test on structureManager.get. -/
def mapHas {α : Type} (m : List (String × α)) (k : String) : Bool :=
  (mapGet m k).isSome

theorem mapGet_mapSet_self {α : Type} (m : List (String × α)) (k : String)
    (v : α) : mapGet (mapSet m k v) k = some v := by
  induction m with
  | nil => simp [mapSet, mapGet]
  | cons p rest ih =>
      obtain ⟨k1, v1⟩ := p
      by_cases h : k1 = k <;> simp [mapSet, mapGet, h, ih]

theorem mapGet_mapDelete_self {α : Type} (m : List (String × α))
    (k : String) : mapGet (mapDelete m k) k = none := by
  induction m with
  | nil => simp [mapDelete, mapGet]
  | cons p rest ih =>
      obtain ⟨k1, v1⟩ := p
      by_cases h : k1 = k <;> simp_all [mapDelete, mapGet, h]

theorem mapHas_mapSet_self {α : Type} (m : List (String × α)) (k : String)
    (v : α) : mapHas (mapSet m k v) k = true := by
  simp [mapHas, mapGet_mapSet_self]

theorem mapHas_mapDelete_self {α : Type} (m : List (String × α))
    (k : String) : mapHas (mapDelete m k) k = false := by
  simp [mapHas, mapGet_mapDelete_self]

/-!
The AsyncQueue of src/scripts/main.js, together with the shared state
its callbacks mutate.  A queued callback is a state transformer that may
also throw: it returns the new shared state (the mutations performed up
to the point of the throw) and optionally the thrown error message.
-/

/-- The AsyncQueue class: the pending callback list and the processing
flag are the two source fields; shared is the state the callbacks
mutate (the world plus the cache), and log collects the messages that
dequeue writes with console.error when a task throws. -/
structure AsyncQueue (σ : Type) where
  queue : List (σ → σ × Option String)
  processing : Bool
  shared : σ
  log : List String

/-- The recursion of AsyncQueue.dequeue, with an explicit fuel argument
standing for the termination measure (each recursive call happens after
one callback has been shifted off the queue, so the queue length at
entry bounds the recursion depth).  Mirrors the source body: bail out
when already processing or when the queue is empty, shift the first
task, run it catching any thrown error with console.error, then in the
finally block clear the processing flag and continue if work remains. -/
def dequeueFuel {σ : Type} (fuel : Nat) (s : AsyncQueue σ) : AsyncQueue σ :=
  match fuel with
  | 0 => s
  | fuel + 1 =>
    if s.processing then s
    else
      match s.queue with
      | [] => s
      | task :: rest =>
          let r := task s.shared
          let s1 : AsyncQueue σ := ⟨rest, false, r.1, s.log ++ r.2.toList⟩
          if rest.isEmpty then s1 else dequeueFuel fuel s1

/-- AsyncQueue.dequeue. -/
def AsyncQueue.dequeue {σ : Type} (s : AsyncQueue σ) : AsyncQueue σ :=
  dequeueFuel s.queue.length s

/-- AsyncQueue.enqueue: push the callback, then start draining unless a
drain is already in progress. -/
def AsyncQueue.enqueue {σ : Type} (s : AsyncQueue σ)
    (callback : σ → σ × Option String) : AsyncQueue σ :=
  let s1 : AsyncQueue σ := { s with queue := s.queue ++ [callback] }
  if !s1.processing then AsyncQueue.dequeue s1 else s1

/-- Reference semantics for a drained queue: apply the tasks one at a
time, strictly in list order, accumulating the error log. -/
def runTasksInOrder {σ : Type} (ts : List (σ → σ × Option String))
    (sh : σ) (log : List String) : σ × List String :=
  match ts with
  | [] => (sh, log)
  | t :: rest => runTasksInOrder rest (t sh).1 (log ++ (t sh).2.toList)

theorem runTasksInOrder_log {σ : Type} (ts : List (σ → σ × Option String))
    (sh : σ) (log : List String) :
    runTasksInOrder ts sh log =
      ((runTasksInOrder ts sh []).1, log ++ (runTasksInOrder ts sh []).2) := by
  induction ts generalizing sh log with
  | nil => simp [runTasksInOrder]
  | cons t rest ih =>
      simp only [runTasksInOrder, List.nil_append]
      rw [ih ((t sh).1) (log ++ (t sh).2.toList), ih ((t sh).1) ((t sh).2.toList)]
      simp

theorem runTasksInOrder_append {σ : Type}
    (a b : List (σ → σ × Option String)) (sh : σ) (log : List String) :
    runTasksInOrder (a ++ b) sh log =
      runTasksInOrder b (runTasksInOrder a sh log).1
        (runTasksInOrder a sh log).2 := by
  induction a generalizing sh log with
  | nil => simp [runTasksInOrder]
  | cons t rest ih => simp [runTasksInOrder, ih]

/-- Draining from an idle queue applies every pending task, strictly in
queue order, and ends idle with an empty queue. -/
theorem dequeue_drains {σ : Type} (ts : List (σ → σ × Option String))
    (sh : σ) (log : List String) :
    AsyncQueue.dequeue ⟨ts, false, sh, log⟩ =
      ⟨[], false, (runTasksInOrder ts sh log).1,
        (runTasksInOrder ts sh log).2⟩ := by
  induction ts generalizing sh log with
  | nil => simp [AsyncQueue.dequeue, dequeueFuel, runTasksInOrder]
  | cons t rest ih =>
      simp only [AsyncQueue.dequeue, List.length_cons, dequeueFuel,
        runTasksInOrder]
      cases rest with
      | nil => simp [runTasksInOrder]
      | cons r rs =>
          have := ih ((t sh).1) (log ++ (t sh).2.toList)
          simp only [AsyncQueue.dequeue, List.length_cons] at this
          simpa using this

/-- A dequeue attempt made while a task is already executing returns at
once without touching anything: the processing flag is the mutual
exclusion mechanism of the queue. -/
theorem dequeue_busy {σ : Type} (s : AsyncQueue σ)
    (hbusy : s.processing = true) : AsyncQueue.dequeue s = s := by
  obtain ⟨q, p, sh, log⟩ := s
  subst hbusy
  cases q <;> simp [AsyncQueue.dequeue, dequeueFuel]

/-- N callers submitting tasks T1..TN in order, each via
AsyncQueue.enqueue. -/
def enqueueAll {σ : Type} (s : AsyncQueue σ)
    (ts : List (σ → σ × Option String)) : AsyncQueue σ :=
  ts.foldl AsyncQueue.enqueue s

theorem enqueueAll_idle {σ : Type} (ts : List (σ → σ × Option String))
    (sh : σ) (log : List String) :
    enqueueAll ⟨[], false, sh, log⟩ ts =
      ⟨[], false, (runTasksInOrder ts sh log).1,
        (runTasksInOrder ts sh log).2⟩ := by
  induction ts generalizing sh log with
  | nil => simp [enqueueAll, runTasksInOrder]
  | cons t rest ih =>
      simp only [enqueueAll, List.foldl_cons]
      have h1 : AsyncQueue.enqueue ⟨[], false, sh, log⟩ t =
          ⟨[], false, (t sh).1, log ++ (t sh).2.toList⟩ := by
        simp only [AsyncQueue.enqueue]
        simpa using dequeue_drains [t] sh log
      rw [h1]
      simpa [runTasksInOrder] using ih ((t sh).1) (log ++ (t sh).2.toList)

theorem runTasksInOrder_tags (tags : List Nat) (l : List Nat)
    (log : List String) :
    runTasksInOrder
        (tags.map (fun i => fun st : List Nat => (st ++ [i], none)))
        l log = (l ++ tags, log) := by
  induction tags generalizing l log with
  | nil => simp [runTasksInOrder]
  | cons i rest ih => simp [runTasksInOrder, ih]

/-!
The SRCItemDatabase record store.  The process-wide mutable state the
store manipulates is gathered in WorldState: the structure manager, the
staging area, and the itemMemory cache.  The store instance itself only
carries its composite table prefix and its save mode, exactly the
fields set by the source constructor.
-/

/-- The process-wide state driven by the store: the structure manager
(map from structure id to the item stacks it captured), the staging
area (live item entities at SRCItemDatabase.location, with nextEid
supplying fresh entity identities), and the itemMemory cache. -/
structure WorldState where
  structures : List (String × List ItemStack)
  staging : List Entity
  nextEid : Nat
  itemMemory : List (String × CacheVal)
deriving DecidableEq

/-- The state of the whole system: the global AsyncQueue whose shared
state is the WorldState. -/
abbrev DBState := AsyncQueue WorldState

/-- An SRCItemDatabase instance: this.table (the name already carries
the composite suffix appended by the constructor) and this.saveMode.
The asyncQueue field of the source is the process-wide queue, which in
the model lives in the DBState. -/
structure SRCItemDatabase where
  table : String
  saveMode : SaveMode
deriving DecidableEq

/-- dimension.spawnItem: materialize a stack as a fresh live entity at
the staging location.  The engine may normalize the stack as it is
materialized; norm is that normalization. -/
def spawnItem (norm : ItemStack → ItemStack) (stack : ItemStack)
    (w : WorldState) : Entity × WorldState :=
  let ent : Entity := ⟨w.nextEid, norm stack⟩
  (ent, { w with staging := w.staging ++ [ent], nextEid := w.nextEid + 1 })

/-- getEntities near the staging location followed by removing each hit:
clears every live item entity from the staging area. -/
def clearStagingItems (w : WorldState) : WorldState :=
  { w with staging := [] }

/-- Fresh entities for the stacks a placed structure re-materializes. -/
def spawnEntities (startEid : Nat) (content : List ItemStack) : List Entity :=
  match content with
  | [] => []
  | c :: rest => ⟨startEid, c⟩ :: spawnEntities (startEid + 1) rest

/-- structureManager.place: re-materialize the captured stacks of a
structure as fresh live entities at the staging area. -/
def placeStructure (content : List ItemStack) (w : WorldState) : WorldState :=
  { w with staging := w.staging ++ spawnEntities w.nextEid content,
           nextEid := w.nextEid + content.length }

/-- The message of the error thrown by set, setItems and getItems when
the key exceeds 12 characters. -/
def keyLengthErrorMsg (key : String) : String :=
  "The provided key " ++ key ++
    " exceeds the maximum allowed length of 12 characters (actual length: "
    ++ toString key.length ++ ")."

/-- The error thrown by the set callback at the assignment to the
undeclared identifier newItem. -/
def referenceErrorMsg : String := "ReferenceError: newItem is not defined"

/-- The callback that SRCItemDatabase.set enqueues: evict any existing
snapshot and cache entry under the composite id, then evaluate
dimension.spawnItem (the entity is materialized at the staging
location) and assign the result to newItem.  newItem is declared
nowhere and the module (import/export code) runs in strict mode, so
that assignment throws a ReferenceError: the callback aborts here,
before createFromWorld, before itemMemory.set and before
newItem.remove, leaving the spawned entity stranded in the staging
area and neither a durable structure nor a cache entry written. -/
def setTask (norm : ItemStack → ItemStack) (db : SRCItemDatabase)
    (key : String) (itemStack : ItemStack) :
    WorldState → WorldState × Option String :=
  fun w =>
    let newId := db.table ++ key
    let w1 := if mapHas w.structures newId then
                { w with structures := mapDelete w.structures newId,
                         itemMemory := mapDelete w.itemMemory newId }
              else w
    let w2 := (spawnItem norm itemStack w1).2
    (w2, some referenceErrorMsg)

/-- SRCItemDatabase.set: reject a key longer than 12 characters by
throwing synchronously (returned as the first component, with the state
untouched); otherwise enqueue the save callback on the global queue.
The source also returns a success flag that the claims do not mention;
it is not modelled. -/
def SRCItemDatabase.set (norm : ItemStack → ItemStack)
    (db : SRCItemDatabase) (key : String) (itemStack : ItemStack)
    (s : DBState) : Option String × DBState :=
  if key.length > 12 then (some (keyLengthErrorMsg key), s)
  else (none, AsyncQueue.enqueue s (setTask norm db key itemStack))

/-- The callback that SRCItemDatabase.setItems enqueues: evict any
existing snapshot and cache entry, clear the staging area, materialize
every stack of the batch, capture the staging area as the durable
structure, and store the original input array into the cache.  The
source does not remove the spawned entities afterwards. -/
def setItemsTask (norm : ItemStack → ItemStack) (db : SRCItemDatabase)
    (key : String) (items : List ItemStack) :
    WorldState → WorldState × Option String :=
  fun w =>
    let newId := db.table ++ key
    let w1 := if mapHas w.structures newId then
                { w with structures := mapDelete w.structures newId,
                         itemMemory := mapDelete w.itemMemory newId }
              else w
    let w2 := clearStagingItems w1
    let w3 := spawnAll norm items w2
    let w4 := { w3 with
                structures := mapSet w3.structures newId
                  (w3.staging.map Entity.stack) }
    let w5 := { w4 with
                itemMemory := mapSet w4.itemMemory newId
                  (CacheVal.many items) }
    (w5, none)
where
  spawnAll (norm : ItemStack → ItemStack) (items : List ItemStack)
      (w : WorldState) : WorldState :=
    match items with
    | [] => w
    | it :: rest => spawnAll norm rest (spawnItem norm it w).2

/-- SRCItemDatabase.setItems: same synchronous key-length check as set,
then enqueue the batched save callback. -/
def SRCItemDatabase.setItems (norm : ItemStack → ItemStack)
    (db : SRCItemDatabase) (key : String) (items : List ItemStack)
    (s : DBState) : Option String × DBState :=
  if key.length > 12 then (some (keyLengthErrorMsg key), s)
  else (none, AsyncQueue.enqueue s (setItemsTask norm db key items))

/-- SRCItemDatabase.get: a synchronous itemMemory lookup; the JavaScript
body returns the entry when it is truthy and undefined otherwise.  The
state is returned unchanged: the staging area, the structure manager
and the cache are not written. -/
def SRCItemDatabase.get (db : SRCItemDatabase) (key : String)
    (s : DBState) : Option CacheVal × DBState :=
  let item := mapGet s.shared.itemMemory (db.table ++ key)
  (match item with
   | some v => if truthy v then some v else none
   | none => none, s)

/-- SRCItemDatabase.delete: remove the durable structure (the host call
reports whether one existed) and the cache entry, synchronously. -/
def SRCItemDatabase.delete (db : SRCItemDatabase) (key : String)
    (s : DBState) : Bool × DBState :=
  let newId := db.table ++ key
  let deleted := mapHas s.shared.structures newId
  let w := { s.shared with
             structures := mapDelete s.shared.structures newId,
             itemMemory := mapDelete s.shared.itemMemory newId }
  (deleted, { s with shared := w })

/-- SRCItemDatabase.getOnce: get, then delete, then return what get
produced. -/
def SRCItemDatabase.getOnce (db : SRCItemDatabase) (key : String)
    (s : DBState) : Option CacheVal × DBState :=
  let g := SRCItemDatabase.get db key s
  let d := SRCItemDatabase.delete db key g.2
  (g.1, d.2)

/-- SRCItemDatabase.has: cache-only existence check. -/
def SRCItemDatabase.has (db : SRCItemDatabase) (key : String)
    (s : DBState) : Bool :=
  mapHas s.shared.itemMemory (db.table ++ key)

/-- SRCItemDatabase.hasAsync: truthiness of structureManager.get. -/
def SRCItemDatabase.hasAsync (db : SRCItemDatabase) (key : String)
    (s : DBState) : Bool :=
  mapHas s.shared.structures (db.table ++ key)

/-- The characters of a string before the first occurrence of the
separator: JavaScript s.split(sep)[0] for a one-character separator. -/
def takeUntilChar (c : Char) (l : List Char) : List Char :=
  match l with
  | [] => []
  | x :: xs => if x = c then [] else x :: takeUntilChar c xs

/-- The characters after the first occurrence of the separator, or the
empty list when the separator does not occur. -/
def charsAfter (c : Char) (l : List Char) : List Char :=
  match l with
  | [] => []
  | x :: xs => if x = c then xs else charsAfter c xs

/-- JavaScript s.split(c)[0]. -/
def splitFirst (c : Char) (s : String) : String :=
  ⟨takeUntilChar c s.data⟩

/-- JavaScript s.split(c)[1]: the segment between the first and second
occurrence of the separator (the empty string standing for the
undefined slot when the separator does not occur). -/
def splitSecond (c : Char) (s : String) : String :=
  ⟨takeUntilChar c (charsAfter c s.data)⟩

/-- JavaScript String.prototype.startsWith on the model strings. -/
def strStartsWith (s pre : String) : Bool :=
  pre.data.isPrefixOf s.data

/-- SRCItemDatabase.getAllKeys: every structure id carrying this table
prefix, with the prefix stripped (split on the colon, second segment). -/
def SRCItemDatabase.getAllKeys (db : SRCItemDatabase) (w : WorldState) :
    List String :=
  ((w.structures.map Prod.fst).filter
      (fun id => strStartsWith id db.table)).map
    (fun id => splitSecond (Char.ofNat 58) id)

/-- SRCItemDatabase.getAsync, acting on the world state (the source
method does not go through the queue): when the structure exists, clear
the staging area of stray item entities, place the structure, read the
closest re-materialized entity, remove it and return its stack. -/
def SRCItemDatabase.getAsync (db : SRCItemDatabase) (key : String)
    (w : WorldState) : Option ItemStack × WorldState :=
  let newId := db.table ++ key
  match mapGet w.structures newId with
  | none => (none, w)
  | some content =>
      let w1 := clearStagingItems w
      let w2 := placeStructure content w1
      match w2.staging.head? with
      | none => (none, w2)
      | some ent =>
          let itemStack := ent.stack
          let w3 := { w2 with
                      staging := w2.staging.filter
                        (fun en => en.eid ≠ ent.eid) }
          (some itemStack, w3)

/-- SRCItemDatabase.getItems: throws synchronously on a long key; then
a miss of the (truthy) cache entry or of the durable structure answers
with the empty array, while a placed structure that re-materializes no
item entity at all answers with undefined (modelled as none); otherwise
the re-materialized stacks are collected, the entities removed, the
cache refreshed with the collected stacks, and the stacks returned. -/
def SRCItemDatabase.getItems (db : SRCItemDatabase) (key : String)
    (s : DBState) : Except String (Option (List ItemStack)) × DBState :=
  if key.length > 12 then (Except.error (keyLengthErrorMsg key), s)
  else
    let newId := db.table ++ key
    match mapGet s.shared.itemMemory newId with
    | none => (Except.ok (some []), s)
    | some itemsS =>
        if !truthy itemsS then (Except.ok (some []), s)
        else
          match mapGet s.shared.structures newId with
          | none => (Except.ok (some []), s)
          | some content =>
              let w1 := clearStagingItems s.shared
              let w2 := placeStructure content w1
              let items := w2.staging
              if items.isEmpty then (Except.ok none, { s with shared := w2 })
              else
                let itemStacksArray := items.map Entity.stack
                let w3 := { w2 with
                            staging := [],
                            itemMemory := mapSet w2.itemMemory newId
                              (CacheVal.many itemStacksArray) }
                (Except.ok (some itemStacksArray), { s with shared := w3 })

/-- The loop of the load callback: getAsync every existing key of this
table and cache each stack found. -/
def loadLoop (db : SRCItemDatabase) (keys : List String)
    (w : WorldState) : WorldState :=
  match keys with
  | [] => w
  | key :: rest =>
      let g := SRCItemDatabase.getAsync db key w
      let w2 := match g.1 with
                | some it => { g.2 with
                               itemMemory := mapSet g.2.itemMemory
                                 (db.table ++ key) (CacheVal.single it) }
                | none => g.2
      loadLoop db rest w2

/-- The callback that SRCItemDatabase.load enqueues (an empty key list
returns at once, which the loop already does). -/
def loadTask (db : SRCItemDatabase) :
    WorldState → WorldState × Option String :=
  fun w => (loadLoop db (SRCItemDatabase.getAllKeys db w) w, none)

/-- SRCItemDatabase.load.  loadZone only issues block and tickingarea
commands, which touch neither the live item entities, the structures
nor the cache; it is the identity on the model state. -/
def SRCItemDatabase.load (db : SRCItemDatabase) (s : DBState) : DBState :=
  AsyncQueue.enqueue s (loadTask db)

/-- The message of the initialization error. -/
def initErrorMsg (table : String) : String :=
  "Initialization Error for table: " ++ table ++
    ": The provided table name cannot be more than 12 characters. Length: "
    ++ toString table.length ++ "."

/-- SRCItemDatabase.init: check the length of this.table split on the
underscore (first segment), then load. -/
def SRCItemDatabase.init (db : SRCItemDatabase) (s : DBState) :
    Option String × DBState :=
  let table := splitFirst (Char.ofNat 95) db.table
  if table.length > 12 then (some (initErrorMsg table), s)
  else (none, SRCItemDatabase.load db s)

/-- The SRCItemDatabase constructor: record the composite table prefix
(the given name with the suffix appended) and the save mode, then run
init. -/
def SRCItemDatabase.make (table : String) (saveMode : SaveMode)
    (s : DBState) : SRCItemDatabase × (Option String × DBState) :=
  let db : SRCItemDatabase := ⟨table ++ "_item:", saveMode⟩
  (db, SRCItemDatabase.init db s)

/-!
Concrete fixture states used to exercise the theorems below on closed
inputs.
-/

/-- A store instance as the constructor builds it for the name tbl. -/
def tbl0 : SRCItemDatabase := ⟨"tbl_item:", SaveMode.World⟩

/-- A sample record. -/
def stone0 : ItemStack := ⟨"minecraft:stone", 64⟩

/-- The empty world: no structures, empty staging area, empty cache. -/
def emptyWorld : WorldState := ⟨[], [], 0, []⟩

/-- An idle system: empty queue, not processing, empty world. -/
def idleState : DBState := ⟨[], false, emptyWorld, []⟩

/-- A system observed while a task is executing (the processing flag is
set and the running task has already been shifted off the queue), with
one record of table tbl stored both durably and in the cache. -/
def busyState : DBState :=
  ⟨[], true,
    ⟨[("tbl_item:a", [stone0])], [], 0, [("tbl_item:a", CacheVal.single stone0)]⟩,
    []⟩

/-- An idle system holding a cache entry with no durable structure. -/
def cacheOnlyState : DBState :=
  ⟨[], false, ⟨[], [], 0, [("tbl_item:a", CacheVal.single stone0)]⟩, []⟩

/-- An idle system where key a has a truthy cache entry (the empty
array) and a durable structure that captured no entities. -/
def emptySnapState : DBState :=
  ⟨[], false,
    ⟨[("tbl_item:a", [])], [], 0, [("tbl_item:a", CacheVal.many [])]⟩,
    []⟩

/-- C9: SRCItemDatabase.get is a synchronous cache-only lookup: it
answers with the itemMemory entry under the composite id (or absent)
and leaves the entire state - cache, staging area, durable structures
and queue - unchanged. -/
theorem get_is_cache_only_lookup (db : SRCItemDatabase) (key : String)
    (s : DBState) :
    (SRCItemDatabase.get db key s).1
        = mapGet s.shared.itemMemory (db.table ++ key) ∧
    (SRCItemDatabase.get db key s).2 = s := by
  refine ⟨?_, rfl⟩
  unfold SRCItemDatabase.get
  cases h : mapGet s.shared.itemMemory (db.table ++ key) <;>
    simp [truthy, h]

/-- C7: delete removes both the durable structure and the cache entry
under the composite id, so has, get and hasAsync all report absence
afterwards; it returns exactly whether a durable structure existed, so
on an absent key it returns false (and, being a total function, it
never throws). -/
theorem delete_removes_snapshot_and_cache (db : SRCItemDatabase)
    (key : String) (s : DBState) :
    SRCItemDatabase.has db key (SRCItemDatabase.delete db key s).2 = false ∧
    (SRCItemDatabase.get db key (SRCItemDatabase.delete db key s).2).1 = none ∧
    SRCItemDatabase.hasAsync db key (SRCItemDatabase.delete db key s).2 = false ∧
    (SRCItemDatabase.delete db key s).1 = SRCItemDatabase.hasAsync db key s := by
  refine ⟨?_, ?_, ?_, rfl⟩ <;>
    simp [SRCItemDatabase.has, SRCItemDatabase.get, SRCItemDatabase.hasAsync,
      SRCItemDatabase.delete, mapGet_mapDelete_self, mapHas_mapDelete_self]

/-- C8: getOnce returns exactly what get returns, its resulting state is
the one produced by performing get and then delete, and a second
immediate getOnce on the same key answers absent. -/
theorem getOnce_is_get_then_delete (db : SRCItemDatabase) (key : String)
    (s : DBState) :
    (SRCItemDatabase.getOnce db key s).1 = (SRCItemDatabase.get db key s).1 ∧
    (SRCItemDatabase.getOnce db key s).2 =
      (SRCItemDatabase.delete db key (SRCItemDatabase.get db key s).2).2 ∧
    (SRCItemDatabase.getOnce db key (SRCItemDatabase.getOnce db key s).2).1
        = none := by
  refine ⟨rfl, rfl, ?_⟩
  simp [SRCItemDatabase.getOnce, SRCItemDatabase.get, SRCItemDatabase.delete,
    mapGet_mapDelete_self]

/-- C5: a key longer than 12 characters makes both set and setItems
throw the key-length error synchronously, with the whole state - queue
included - returned untouched: no task is enqueued and neither the
staging area nor the cache is written. -/
theorem long_key_rejected_synchronously (norm : ItemStack → ItemStack)
    (db : SRCItemDatabase) (key : String) (itemStack : ItemStack)
    (items : List ItemStack) (s : DBState) (hk : 12 < key.length) :
    SRCItemDatabase.set norm db key itemStack s
        = (some (keyLengthErrorMsg key), s) ∧
    SRCItemDatabase.setItems norm db key items s
        = (some (keyLengthErrorMsg key), s) := by
  constructor <;>
    simp [SRCItemDatabase.set, SRCItemDatabase.setItems, hk]

/-- Witness for C5 at a 13-character key and the idle fixture state. -/
theorem long_key_rejected_synchronously_witness :
    SRCItemDatabase.set (fun x => x) tbl0 "aaaaaaaaaaaaa" stone0 idleState
        = (some (keyLengthErrorMsg "aaaaaaaaaaaaa"), idleState) ∧
    SRCItemDatabase.setItems (fun x => x) tbl0 "aaaaaaaaaaaaa" [] idleState
        = (some (keyLengthErrorMsg "aaaaaaaaaaaaa"), idleState) :=
  long_key_rejected_synchronously (fun x => x) tbl0 "aaaaaaaaaaaaa" stone0
    [] idleState (by decide)

/-- C2: the AsyncQueue executes at most one task at a time and runs
tasks strictly in submission order.  First, a dequeue attempt made
while a task is executing (processing flag set) returns without running
anything - the mutual exclusion mechanism.  Second, enqueuing T1..TN
one after another from an idle queue leaves the queue idle and empty
with the shared state equal to applying T1..TN one at a time in exactly
the submission order (task latency is outside the cooperative model:
a task is a whole unit of work).  Third, on the concrete shared
resource of a list of tags, the tasks that each append their tag make
their side effects visible in exactly the submission order. -/
theorem asyncQueue_serializes_in_fifo_order {σ : Type} (s : AsyncQueue σ)
    (hbusy : s.processing = true) (ts : List (σ → σ × Option String))
    (sh : σ) (tags : List Nat) :
    AsyncQueue.dequeue s = s ∧
    enqueueAll ⟨[], false, sh, []⟩ ts =
      ⟨[], false, (runTasksInOrder ts sh []).1,
        (runTasksInOrder ts sh []).2⟩ ∧
    (enqueueAll ⟨[], false, ([] : List Nat), []⟩
        (tags.map (fun i => fun st => (st ++ [i], none)))).shared = tags :=
  ⟨dequeue_busy s hbusy, enqueueAll_idle ts sh [],
    by rw [enqueueAll_idle, runTasksInOrder_tags]; simp⟩

/-- Witness for C2 on a busy queue over Nat, two concrete tasks and
three tagged tasks. -/
theorem asyncQueue_serializes_in_fifo_order_witness :
    AsyncQueue.dequeue (⟨[], true, 0, []⟩ : AsyncQueue Nat)
        = (⟨[], true, 0, []⟩ : AsyncQueue Nat) ∧
    enqueueAll (⟨[], false, 3, []⟩ : AsyncQueue Nat)
        [fun n => (n + 1, none), fun n => (n * 2, none)] =
      ⟨[], false,
        (runTasksInOrder
          [fun n => (n + 1, none), fun n => (n * 2, none)] 3 []).1,
        (runTasksInOrder
          [fun n => (n + 1, none), fun n => (n * 2, none)] 3 []).2⟩ ∧
    (enqueueAll ⟨[], false, ([] : List Nat), []⟩
        ([1, 2, 3].map (fun i => fun st => (st ++ [i], none)))).shared
      = [1, 2, 3] :=
  asyncQueue_serializes_in_fifo_order ⟨[], true, 0, []⟩ rfl
    [fun n => (n + 1, none), fun n => (n * 2, none)] 3 [1, 2, 3]

/-- C4: when the queue drains a run of tasks in which tbad always
throws the error e, the thrown error is caught and logged (e appears in
the log, in its submission position), the queue does not stall, and
every later task still executes, in order, on the state tbad left
behind; the queue ends empty and idle.  The enqueue call itself
returned to the caller without the error: only the log carries it. -/
theorem asyncQueue_failure_logged_and_drain_continues {σ : Type}
    (pre post : List (σ → σ × Option String))
    (tbad : σ → σ × Option String) (f : σ → σ) (e : String)
    (hbad : ∀ x, tbad x = (f x, some e)) (sh : σ) :
    AsyncQueue.dequeue ⟨pre ++ tbad :: post, false, sh, []⟩ =
      ⟨[], false,
        (runTasksInOrder post (f (runTasksInOrder pre sh []).1) []).1,
        (runTasksInOrder pre sh []).2 ++
          e :: (runTasksInOrder post (f (runTasksInOrder pre sh []).1) []).2⟩ ∧
    e ∈ (AsyncQueue.dequeue ⟨pre ++ tbad :: post, false, sh, []⟩).log := by
  have h1 : AsyncQueue.dequeue ⟨pre ++ tbad :: post, false, sh, []⟩ =
      ⟨[], false,
        (runTasksInOrder post (f (runTasksInOrder pre sh []).1) []).1,
        (runTasksInOrder pre sh []).2 ++
          e :: (runTasksInOrder post (f (runTasksInOrder pre sh []).1) []).2⟩ := by
    rw [dequeue_drains, runTasksInOrder_append]
    simp only [runTasksInOrder, hbad, Option.toList_some]
    rw [runTasksInOrder_log]
    simp
  exact ⟨h1, by rw [h1]; simp⟩

/-- Witness for C4 over Nat: one task before the throwing one, one
after; the later task still runs and the error is logged. -/
theorem asyncQueue_failure_logged_and_drain_continues_witness :
    AsyncQueue.dequeue
        (⟨[fun n => (n + 1, none), fun n => (n, some "boom"),
            fun n => (n + 10, none)], false, 0, []⟩ : AsyncQueue Nat) =
      ⟨[], false, 11, ["boom"]⟩ ∧
    "boom" ∈ (AsyncQueue.dequeue
        (⟨[fun n => (n + 1, none), fun n => (n, some "boom"),
            fun n => (n + 10, none)], false, 0, []⟩ : AsyncQueue Nat)).log := by
  have h := asyncQueue_failure_logged_and_drain_continues
    [fun n => (n + 1, none)] [fun n => (n + 10, none)]
    (fun n => (n, some "boom")) (fun n => n) "boom" (fun x => rfl) 0
  simpa [runTasksInOrder] using h

/-- C1: the code at the failing input.  set("a", stone0) on the idle
empty system enqueues its callback, which drains at once; the callback
evicts nothing (no old snapshot), spawns the entity and then throws the
ReferenceError at the undeclared newItem assignment, which dequeue
catches and logs.  So, after the drain: get answers absent, no durable
structure exists, no cache entry exists, the ReferenceError is the one
logged message, the spawned entity is left stranded in the staging
area, and the queue is empty and idle - the drained set task created
neither the durable snapshot nor the cache entry the claim promises,
and set-then-get does not return the record. -/
theorem set_task_aborts_before_snapshot_and_cache :
    (SRCItemDatabase.get tbl0 "a"
        (SRCItemDatabase.set (fun x => x) tbl0 "a" stone0 idleState).2).1
      = none ∧
    SRCItemDatabase.hasAsync tbl0 "a"
        (SRCItemDatabase.set (fun x => x) tbl0 "a" stone0 idleState).2
      = false ∧
    SRCItemDatabase.has tbl0 "a"
        (SRCItemDatabase.set (fun x => x) tbl0 "a" stone0 idleState).2
      = false ∧
    (SRCItemDatabase.set (fun x => x) tbl0 "a" stone0 idleState).2.log
      = [referenceErrorMsg] ∧
    (SRCItemDatabase.set (fun x => x) tbl0 "a" stone0 idleState).2.shared.staging
      = [⟨0, stone0⟩] ∧
    (SRCItemDatabase.set (fun x => x) tbl0 "a" stone0 idleState).2.queue
      = [] ∧
    (SRCItemDatabase.set (fun x => x) tbl0 "a" stone0 idleState).2.processing
      = false :=
  ⟨rfl, rfl, rfl, rfl, rfl, rfl, rfl⟩

/-- C3 counterexample: delete does not route its effect through the
shared task queue.  In the busy fixture (a task is mid-flight, the
processing flag is set, so an effect routed through the queue could not
run yet and would sit in the queue), delete has already removed the
durable structure when it returns, and the queue is left empty: no
callback was appended. -/
theorem delete_bypasses_queue_cex :
    busyState.processing = true ∧
    busyState.shared.structures ≠ [] ∧
    (SRCItemDatabase.delete tbl0 "a" busyState).2.shared.structures = [] ∧
    (SRCItemDatabase.delete tbl0 "a" busyState).2.queue = [] := by
  exact ⟨rfl, by decide, by decide, rfl⟩

/-- C3 amended: set and setItems route their effects through the single
shared task queue - invoked while the queue is draining they only
append their callback, leaving the world state untouched until the
queue runs it - so queued mutations observe the enqueue order; delete,
however, applies its mutation synchronously, bypassing the queue. -/
theorem mutators_route_through_queue_amended
    (norm : ItemStack → ItemStack) (db : SRCItemDatabase) (key : String)
    (r : ItemStack) (items : List ItemStack) (s : DBState)
    (hk : key.length ≤ 12) (hbusy : s.processing = true) :
    (SRCItemDatabase.set norm db key r s).2 =
      { s with queue := s.queue ++ [setTask norm db key r] } ∧
    (SRCItemDatabase.setItems norm db key items s).2 =
      { s with queue := s.queue ++ [setItemsTask norm db key items] } ∧
    (SRCItemDatabase.delete db key s).2.queue = s.queue ∧
    (SRCItemDatabase.delete db key s).2.shared.structures =
      mapDelete s.shared.structures (db.table ++ key) ∧
    (SRCItemDatabase.delete db key s).2.shared.itemMemory =
      mapDelete s.shared.itemMemory (db.table ++ key) := by
  have hk2 : ¬ key.length > 12 := Nat.not_lt.mpr hk
  refine ⟨?_, ?_, rfl, rfl, rfl⟩ <;>
    simp [SRCItemDatabase.set, SRCItemDatabase.setItems,
      AsyncQueue.enqueue, hk2, hbusy]

/-- Witness for the amended C3 at the busy fixture state. -/
theorem mutators_route_through_queue_amended_witness :
    (SRCItemDatabase.set (fun x => x) tbl0 "a" stone0 busyState).2 =
      { busyState with
        queue := busyState.queue ++ [setTask (fun x => x) tbl0 "a" stone0] } ∧
    (SRCItemDatabase.setItems (fun x => x) tbl0 "a" [stone0] busyState).2 =
      { busyState with
        queue := busyState.queue
          ++ [setItemsTask (fun x => x) tbl0 "a" [stone0]] } ∧
    (SRCItemDatabase.delete tbl0 "a" busyState).2.queue = busyState.queue ∧
    (SRCItemDatabase.delete tbl0 "a" busyState).2.shared.structures =
      mapDelete busyState.shared.structures (tbl0.table ++ "a") ∧
    (SRCItemDatabase.delete tbl0 "a" busyState).2.shared.itemMemory =
      mapDelete busyState.shared.itemMemory (tbl0.table ++ "a") :=
  mutators_route_through_queue_amended (fun x => x) tbl0 "a" stone0 [stone0]
    busyState (by decide) rfl

theorem takeUntilChar_append_sep (c : Char) (l m : List Char) :
    takeUntilChar c (l ++ c :: m) = takeUntilChar c l := by
  induction l with
  | nil => simp [takeUntilChar]
  | cons x xs ih => by_cases h : x = c <;> simp [takeUntilChar, h, ih]

theorem takeUntilChar_length_le (c : Char) (l : List Char) :
    (takeUntilChar c l).length ≤ l.length := by
  induction l with
  | nil => simp [takeUntilChar]
  | cons x xs ih =>
      by_cases h : x = c
      · simp [takeUntilChar, h]
      · simp only [takeUntilChar, if_neg h, List.length_cons]
        exact Nat.succ_le_succ ih

/-- C6 counterexample: the table name ab_cdefghijklmno is 16 characters
long, yet the constructor succeeds with no initialization error,
because init measures this.table split on the underscore (first
segment), which here is the 2-character ab. -/
theorem long_table_name_accepted_cex :
    12 < ("ab_cdefghijklmno" : String).length ∧
    (SRCItemDatabase.make "ab_cdefghijklmno" SaveMode.World idleState).2.1
      = none := by
  exact ⟨by decide, by decide⟩

/-- C6 amended: construction raises the initialization error exactly
when the segment of the table name before its first underscore exceeds
12 characters; in particular every name of at most 12 characters is
accepted, but so is any longer name whose first underscore comes within
its first 13 characters. -/
theorem table_name_error_iff_prefix_long (name : String) (m : SaveMode)
    (s : DBState) :
    ((SRCItemDatabase.make name m s).2.1 ≠ none ↔
        12 < (takeUntilChar (Char.ofNat 95) name.data).length) ∧
    (name.length ≤ 12 → (SRCItemDatabase.make name m s).2.1 = none) := by
  obtain ⟨l⟩ := name
  have hdata : (String.mk l ++ "_item:").data
      = l ++ Char.ofNat 95 :: ("item:" : String).data := by
    show l ++ ("_item:" : String).data = _
    congr 1
  have hsplit : (splitFirst (Char.ofNat 95) (String.mk l ++ "_item:")).length
      = (takeUntilChar (Char.ofNat 95) l).length := by
    unfold splitFirst
    rw [hdata, takeUntilChar_append_sep]
    rfl
  have hval : (SRCItemDatabase.make (String.mk l) m s).2.1 =
      if 12 < (takeUntilChar (Char.ofNat 95) l).length
      then some (initErrorMsg
        (splitFirst (Char.ofNat 95) (String.mk l ++ "_item:")))
      else none := by
    simp only [SRCItemDatabase.make, SRCItemDatabase.init, gt_iff_lt, hsplit]
    rw [apply_ite Prod.fst]
  rw [hval]
  constructor
  · by_cases hc : 12 < (takeUntilChar (Char.ofNat 95) l).length <;>
      simp [hc]
  · intro hlen
    have hle : (takeUntilChar (Char.ofNat 95) l).length ≤ 12 :=
      le_trans (takeUntilChar_length_le _ _) hlen
    simp [Nat.not_lt.mpr hle]

/-- Witness for the amended C6: the 7-character name myTable opens with
no initialization error. -/
theorem table_name_error_iff_prefix_long_witness :
    (SRCItemDatabase.make "myTable" SaveMode.World idleState).2.1 = none :=
  (table_name_error_iff_prefix_long "myTable" SaveMode.World idleState).2
    (by decide)

/-- C10: getItems on a key within the length limit encodes absence two
different ways: a missing cache entry, or a present cache entry with a
missing durable structure, answer with the empty array and leave the
state untouched; but a present cache entry whose durable structure
captured no entities (so the placed structure re-materializes zero item
entities in the staging area) answers with undefined, modelled none. -/
theorem getItems_two_absent_encodings (db : SRCItemDatabase) (key : String)
    (s : DBState) (hk : key.length ≤ 12) :
    (mapGet s.shared.itemMemory (db.table ++ key) = none →
      SRCItemDatabase.getItems db key s = (Except.ok (some []), s)) ∧
    (∀ v, mapGet s.shared.itemMemory (db.table ++ key) = some v →
      mapGet s.shared.structures (db.table ++ key) = none →
      SRCItemDatabase.getItems db key s = (Except.ok (some []), s)) ∧
    (∀ v, mapGet s.shared.itemMemory (db.table ++ key) = some v →
      mapGet s.shared.structures (db.table ++ key) = some [] →
      (SRCItemDatabase.getItems db key s).1 = Except.ok none) := by
  have hk2 : ¬ key.length > 12 := Nat.not_lt.mpr hk
  refine ⟨?_, ?_, ?_⟩
  · intro h
    simp [SRCItemDatabase.getItems, hk2, h]
  · intro v h1 h2
    simp [SRCItemDatabase.getItems, hk2, h1, h2, truthy]
  · intro v h1 h2
    simp [SRCItemDatabase.getItems, hk2, h1, h2, truthy, clearStagingItems,
      placeStructure, spawnEntities]

/-- Witness for C10: the three concrete fixtures - empty system, cache
entry without structure, and cache entry with an empty-content
structure - produce the two distinct absent encodings. -/
theorem getItems_two_absent_encodings_witness :
    SRCItemDatabase.getItems tbl0 "a" idleState
        = (Except.ok (some []), idleState) ∧
    SRCItemDatabase.getItems tbl0 "a" cacheOnlyState
        = (Except.ok (some []), cacheOnlyState) ∧
    (SRCItemDatabase.getItems tbl0 "a" emptySnapState).1 = Except.ok none :=
  ⟨(getItems_two_absent_encodings tbl0 "a" idleState (by decide)).1 rfl,
   (getItems_two_absent_encodings tbl0 "a" cacheOnlyState (by decide)).2.1
     (CacheVal.single stone0) rfl rfl,
   (getItems_two_absent_encodings tbl0 "a" emptySnapState (by decide)).2.2
     (CacheVal.many []) rfl rfl⟩
